import Mathlib

/-!
Verification of the bulk-dataset caching and query layer of the
uk-schools-mcp repository (GIAS school-directory client, Ofsted
inspection client, and the tool-dispatch boundary of the server).

The Python source is shallowly embedded: tables are lists of rows, a row
is an association list from column name to an optional string (polars
reads every column as text because `infer_schema_length=0`; `none`
models a null cell), and the stateful cache layer is modelled by
explicit state passing.  Floating-point coordinate arithmetic is
modelled over `ℚ`; the square root in the distance computation is
eliminated by comparing and sorting squared distances, which is valid
because squaring is monotone on nonnegative reals.
-/

/-! ## String utilities

Python and polars string primitives (`str.strip`, `str.upper`,
substring containment, `str.replace`, `int(...)`, numeric casts) are
re-implemented over `List Char` so that every definition is executable
and kernel-reducible. -/

/-- Tests whether `needle` is a prefix of `hay` (character lists). -/
def startsWithChars : List Char → List Char → Bool
  | [], _ => true
  | _ :: _, [] => false
  | n :: ns, h :: hs => n == h && startsWithChars ns hs

/-- Tests whether `needle` occurs as a contiguous run inside `hay`. -/
def hasSubChars (needle : List Char) : List Char → Bool
  | [] => needle.isEmpty
  | h :: t => startsWithChars needle (h :: t) || hasSubChars needle t

/-- Substring containment on strings: `strContainsSub hay needle` is the
embedding of Python's `needle in hay` / polars `str.contains(needle,
literal=True)`. -/
def strContainsSub (hay needle : String) : Bool :=
  hasSubChars needle.data hay.data

/-- Characters treated as whitespace by Python's `str.strip()`. -/
def isPyWs (c : Char) : Bool :=
  c == ' ' || c == '\t' || c == '\n' || c == '\r' || c.toNat == 11 || c.toNat == 12

/-- Embedding of Python's `str.strip()` (trim whitespace on both ends). -/
def pyStrip (s : String) : String :=
  ⟨((s.data.dropWhile isPyWs).reverse.dropWhile isPyWs).reverse⟩

/-- Embedding of Python's `str.upper()` / polars `str.to_uppercase()`
restricted to ASCII letters (the data is ASCII). -/
def upperStr (s : String) : String :=
  ⟨s.data.map Char.toUpper⟩

/-- Embedding of `any(c.isdigit() for c in s)`. -/
def hasDigit (s : String) : Bool :=
  s.data.any Char.isDigit

/-- Numeric value of a run of decimal digits. -/
def digitsVal (ds : List Char) : Nat :=
  ds.foldl (fun a c => a * 10 + (c.toNat - 48)) 0

/-- Parses a nonempty all-digit character run. -/
def decNat? (ds : List Char) : Option Nat :=
  if ds ≠ [] ∧ ds.all Char.isDigit then some (digitsVal ds) else none

/-- Parses an optionally signed decimal integer (no surrounding
whitespace). -/
def signedInt? (s : String) : Option Int :=
  match s.data with
  | '-' :: ds => (decNat? ds).map (fun n => -(n : Int))
  | '+' :: ds => (decNat? ds).map (fun n => (n : Int))
  | ds => (decNat? ds).map (fun n => (n : Int))

/-- Embedding of the polars `cast(pl.Int64, strict=False)` parse of a
single text cell: an optionally signed digit run, `none` on failure. -/
def polarsInt? (s : String) : Option Int :=
  signedInt? s

/-- Embedding of Python's `int(s)` on a string, as an `Option`:
surrounding whitespace is stripped, then an optionally signed decimal
integer is required (`none` models the `ValueError`). -/
def pyInt? (s : String) : Option Int :=
  signedInt? (pyStrip s)

/-- Replace every (non-overlapping, leftmost-first) occurrence of `pat`
by `rep` in `s`, with explicit fuel for termination; `fuel` is
initialised to the length of `s`. -/
def replaceChars (pat rep : List Char) : Nat → List Char → List Char
  | _, [] => []
  | 0, s => s
  | fuel + 1, c :: rest =>
    if pat ≠ [] ∧ startsWithChars pat (c :: rest) = true then
      rep ++ replaceChars pat rep fuel (List.drop (pat.length - 1) rest)
    else
      c :: replaceChars pat rep fuel rest

/-- Embedding of Python's `s.replace(pat, rep)` for nonempty `pat`. -/
def strReplace (s pat rep : String) : String :=
  ⟨replaceChars pat.data rep.data s.data.length s.data⟩

/-- Unsigned decimal-fraction parser: digits, optionally followed by a
point and more digits (at least one digit overall). -/
def parseUDec? (cs : List Char) : Option ℚ :=
  let ip := cs.takeWhile Char.isDigit
  let rest := cs.dropWhile Char.isDigit
  match rest with
  | [] => if ip ≠ [] then some ((digitsVal ip : ℚ)) else none
  | '.' :: fp =>
    if (ip ≠ [] ∨ fp ≠ []) ∧ fp.all Char.isDigit then
      some ((digitsVal ip : ℚ) + (digitsVal fp : ℚ) / (10 : ℚ) ^ fp.length)
    else none
  | _ => none

/-- Embedding of the polars `cast(pl.Float64)` parse of a text cell as
an exact rational (plain decimal notation; exponent notation does not
occur in the coordinate data). `none` models the strict-cast failure. -/
def parseDec? (s : String) : Option ℚ :=
  match s.data with
  | '-' :: cs => (parseUDec? cs).map Neg.neg
  | '+' :: cs => parseUDec? cs
  | cs => parseUDec? cs

/-! ## Table model -/

/-- One table row: column name to optional text cell (`none` = null).
A column absent from the row behaves like a null cell. -/
abbrev Row : Type := List (String × Option String)

/-- Reads a cell from a row. -/
def rowGet (r : Row) (c : String) : Option String :=
  match r.find? (fun p => p.1 == c) with
  | some p => p.2
  | none => none

/-- An in-memory table: the column list together with the rows
(mirroring a polars `DataFrame`). -/
structure Table where
  cols : List String
  rows : List Row

/-! ## GIAS client (clients/gias.py): column constants -/

def urnColG : String := "URN"
def nameCol : String := "EstablishmentName"
def statusCol : String := "EstablishmentStatus (name)"
def phaseCol : String := "PhaseOfEducation (name)"
def pcCol : String := "Postcode"
def laCol : String := "LA (name)"
def latCol : String := "Latitude"
def lngCol : String := "Longitude"
def openStatus : String := "Open"

/-- The allow-list of columns kept for search results
(`SEARCH_COLUMNS` in gias.py). -/
def SEARCH_COLUMNS : List String :=
  [ "URN", "EstablishmentName", "TypeOfEstablishment (name)",
    "EstablishmentStatus (name)", "PhaseOfEducation (name)",
    "StatutoryLowAge", "StatutoryHighAge", "SchoolCapacity",
    "NumberOfPupils", "Gender (name)", "ReligiousCharacter (name)",
    "AdmissionsPolicy (name)", "Street", "Locality", "Town",
    "County (name)", "Postcode", "SchoolWebsite", "TelephoneNum",
    "HeadFirstName", "HeadLastName", "HeadPreferredJobTitle",
    "OfstedLastInsp", "LA (name)", "PercentageFSM", "Latitude",
    "Longitude" ]

/-- The chained `str.replace` rewrites applied to a column name by
`GIASClient._row_to_dict`, in source order. -/
def renamePairs : List (String × String) :=
  [ (" (name)", ""), (" (code)", ""),
    ("EstablishmentName", "name"), ("TypeOfEstablishment", "type"),
    ("EstablishmentStatus", "status"), ("PhaseOfEducation", "phase"),
    ("ReligiousCharacter", "religious_character"),
    ("AdmissionsPolicy", "admissions_policy"),
    ("HeadFirstName", "head_first_name"),
    ("HeadLastName", "head_last_name"),
    ("HeadPreferredJobTitle", "head_job_title"),
    ("OfstedLastInsp", "ofsted_last_inspection"),
    ("LA", "local_authority"), ("TelephoneNum", "telephone"),
    ("SchoolWebsite", "website"), ("SchoolCapacity", "capacity"),
    ("NumberOfPupils", "number_of_pupils"),
    ("StatutoryLowAge", "age_low"), ("StatutoryHighAge", "age_high"),
    ("PercentageFSM", "fsm_percentage"), ("Gender", "gender"),
    ("County", "county") ]

/-- Presentation key for a source column name (the replace chain of
`_row_to_dict`). -/
def renameKey (k : String) : String :=
  renamePairs.foldl (fun s p => strReplace s p.1 p.2) k

/-- Python dict assignment `d[k] = v`: overwrite in place if the key
exists, otherwise append (insertion order preserved). -/
def upsertStr (acc : List (String × String)) (k v : String) :
    List (String × String) :=
  if acc.any (fun p => p.1 == k) then
    acc.map (fun p => if p.1 == k then (k, v) else p)
  else acc ++ [(k, v)]

/-- One iteration of the `for k, v in row.items()` loop of
`_row_to_dict`: keep the cell unless it is null or the empty string,
under the renamed key. -/
def cleanStep (acc : List (String × String)) (kv : String × Option String) :
    List (String × String) :=
  match kv.2 with
  | none => acc
  | some v => if v == "" then acc else upsertStr acc (renameKey kv.1) v

/-- One row of `GIASClient._row_to_dict`: rename each key and keep the
cell unless it is null or the empty string. -/
def cleanRow (r : Row) : List (String × String) :=
  r.foldl cleanStep []

/-- Embedding of `GIASClient._row_to_dict`. -/
def rowToDict (rows : List Row) : List (List (String × String)) :=
  rows.map cleanRow

/-- Restriction of a row to the given columns, in that order (a polars
`select` keeps null cells). -/
def selectRow (avail : List String) (r : Row) : Row :=
  avail.map (fun c => (c, rowGet r c))

/-- Embedding of `GIASClient._select_columns`: keep the search columns
that exist in the frame. -/
def selectCols (cols : List String) (rows : List Row) : List Row :=
  let avail := SEARCH_COLUMNS.filter (fun c => cols.contains c)
  rows.map (selectRow avail)

/-- Truth of a nullable polars boolean cell: a filter keeps a row only
when the predicate evaluates to non-null `true` (Kleene logic). -/
def optTrue (o : Option Bool) : Bool :=
  o == some true

/-- Nullable result of
`pl.col(c).str.to_uppercase().str.contains(q, literal=True)` on one
row: null cell gives null. -/
def matchCol (r : Row) (c : String) (q : String) : Option Bool :=
  (rowGet r c).map (fun s => strContainsSub (upperStr s) q)

/-- The free-text query stage of `GIASClient.search_schools`: skipped
for a missing or empty query; otherwise the query is stripped and
uppercased, and rows are kept by a postcode-or-name substring match
when the query contains a digit, by a name-only match otherwise.
The polars OR is Kleene, so a null postcode with a name match still
passes. -/
def queryStage (query : Option String) (rows : List Row) : List Row :=
  match query with
  | none => rows
  | some qs =>
    if qs == "" then rows
    else
      let q := upperStr (pyStrip qs)
      if hasDigit q then
        rows.filter (fun r =>
          optTrue (matchCol r pcCol q) || optTrue (matchCol r nameCol q))
      else
        rows.filter (fun r => optTrue (matchCol r nameCol q))

/-- Case-insensitive substring filter on one column (the
local-authority and phase filters). -/
def containsFilter (c : String) (needle : String) (rows : List Row) :
    List Row :=
  rows.filter (fun r => optTrue (matchCol r c (upperStr needle)))

/-- Optional attribute filter: applied only when the argument is
present (Python truthiness: `None` and the empty string skip). -/
def optFilter (c : String) (needle : Option String) (rows : List Row) :
    List Row :=
  match needle with
  | none => rows
  | some s => if s == "" then rows else containsFilter c s rows

/-- The open-establishments restriction, applied when the status column
is present. -/
def openFilter (t : Table) : List Row :=
  if t.cols.contains statusCol then
    t.rows.filter (fun r => rowGet r statusCol == some openStatus)
  else t.rows

/-- Embedding of `GIASClient.search_schools`. -/
def searchSchools (t : Table) (query : Option String)
    (localAuthority : Option String) (phase : Option String)
    (limit : Nat) : List (List (String × String)) :=
  let rows0 := openFilter t
  let rows1 := queryStage query rows0
  let rows2 := optFilter laCol localAuthority rows1
  let rows3 := optFilter phaseCol phase rows2
  rowToDict (selectCols t.cols (rows3.take limit))

/-- The exact-text URN comparison `pl.col("URN") == str(urn)` of
`GIASClient.get_school_by_urn` (null cells compare to null, so they are
dropped). -/
def giasTextMatch (urn : Int) (r : Row) : Bool :=
  rowGet r urnColG == some (toString urn)

/-- One iteration of the cleaning loop of `get_school_by_urn` (keys
are not renamed there). -/
def rawStep (acc : List (String × String)) (kv : String × Option String) :
    List (String × String) :=
  match kv.2 with
  | none => acc
  | some v => if v == "" then acc else upsertStr acc kv.1 v

/-- Key filtering of `get_school_by_urn`: all non-empty fields of the
matching row, with the original column names. -/
def cleanRowRaw (r : Row) : List (String × String) :=
  r.foldl rawStep []

def giasUrlKey : String := "gias_url"

/-- The GIAS detail-page URL template. -/
def giasDetailUrl (urn : Int) : String :=
  "https://get-information-schools.service.gov.uk/Establishments/Establishment/Details/"
    ++ toString urn

/-- Embedding of `GIASClient.get_school_by_urn`: a single exact-text
match on the URN column; on zero matches the result is `none` (there is
no numeric-cast fallback in this function), otherwise the first
matching row is cleaned and the detail URL attached. -/
def getSchoolByUrn (t : Table) (urn : Int) :
    Option (List (String × String)) :=
  match (t.rows.filter (giasTextMatch urn)).head? with
  | none => none
  | some row => some (upsertStr (cleanRowRaw row) giasUrlKey (giasDetailUrl urn))

/-! ## Bulk dataset fetcher (GIAS dated-URL strategy) -/

/-- Outcome of one HTTP GET: a transport error (`httpx.HTTPError`) or a
response with a status code and body. -/
inductive HttpResult where
  | netError : HttpResult
  | response : Nat → String → HttpResult
deriving DecidableEq

/-- One loop iteration of `GIASClient._download_csv`: the body is
returned only on status 200; a transport error or any other status
moves on to the next candidate date. -/
def tryOnce (r : HttpResult) : Option String :=
  match r with
  | .netError => none
  | .response st b => if st == 200 then some b else none

/-- Whether a request outcome is a success (status 200). -/
def httpSuccess (r : HttpResult) : Bool :=
  (tryOnce r).isSome

/-- The candidate offsets `range(5)` of `_download_csv`: today back
through four days ago. -/
def lookbackDays : List Nat := [0, 1, 2, 3, 4]

def giasErrMsg : String := "Could not download GIAS data for any recent date"

/-- The lookback loop of `_download_csv` over the remaining day
offsets.  `resp d` is the outcome of the GET for the URL formatted with
the date `today - d` days.  Besides the result it records which offsets
were attempted, in order. -/
def downloadTrace (resp : Nat → HttpResult) :
    List Nat → List Nat × Except String String
  | [] => ([], .error giasErrMsg)
  | d :: ds =>
    match tryOnce (resp d) with
    | some b => ([d], .ok b)
    | none =>
      let r := downloadTrace resp ds
      (d :: r.1, r.2)

/-- Embedding of `GIASClient._download_csv`. -/
def downloadCsv (resp : Nat → HttpResult) : Except String String :=
  (downloadTrace resp lookbackDays).2

/-! ## Tabular cache store (`_ensure_data` of both clients) -/

/-- A calendar date (only formatting matters here). -/
structure Date where
  year : Nat
  month : Nat
  day : Nat
deriving DecidableEq

/-- Two-digit zero padding (`%m`, `%d`). -/
def pad2 (n : Nat) : String :=
  if n < 10 then "0" ++ toString n else toString n

/-- `date.isoformat()` (years in the data are four digits already). -/
def isoDate (d : Date) : String :=
  toString d.year ++ "-" ++ pad2 d.month ++ "-" ++ pad2 d.day

/-- The GIAS cache file name `gias_{date.today().isoformat()}.csv`. -/
def giasCacheFile (d : Date) : String :=
  "gias_" ++ isoDate d ++ ".csv"

/-- The Ofsted freshness key `today.strftime("%Y-%m")`. -/
def monthKey (d : Date) : String :=
  toString d.year ++ "-" ++ pad2 d.month

/-- The Ofsted cache file name `ofsted_mi_{YYYY-MM}.parquet`. -/
def ofstedCacheFile (d : Date) : String :=
  "ofsted_mi_" ++ monthKey d ++ ".parquet"

/-- State of a `GIASClient`: the in-memory frame (`self._df`), the
cache directory contents (file name to raw CSV bytes), and a counter of
completed network downloads (instrumentation for the at-most-one-
download property). -/
structure GiasState (α : Type) where
  df : Option α
  disk : List (String × String)
  downloads : Nat

/-- Embedding of `GIASClient._ensure_data`.  `parse` abstracts
`pl.read_csv` (the same bytes parse to the same frame on the memory
and disk paths). -/
def giasEnsureData {α : Type} (parse : String → α) (today : Date)
    (resp : Nat → HttpResult) (s : GiasState α) :
    Except String (α × GiasState α) :=
  match s.df with
  | some t => .ok (t, s)
  | none =>
    let file := giasCacheFile today
    match List.lookup file s.disk with
    | some bytes =>
      let t := parse bytes
      .ok (t, { s with df := some t })
    | none =>
      match downloadCsv resp with
      | .error e => .error e
      | .ok bytes =>
        let t := parse bytes
        .ok (t, { df := some t, disk := (file, bytes) :: s.disk,
                  downloads := s.downloads + 1 })

/-- State of an `OfstedClient`: the in-memory frame, the cache
directory (file name to the parsed table: `write_parquet` followed by
`read_parquet` round-trips the frame), and the download counter. -/
structure OfstedState (α : Type) where
  df : Option α
  disk : List (String × α)
  downloads : Nat

/-- Embedding of `OfstedClient._ensure_data`.  `fetchParse` abstracts
`_download_mi_data` followed by the Excel parse and column renames
(C1 is about the caching shell, not the discovery strategy). -/
def ofstedEnsureData {α : Type} (fetchParse : Except String α)
    (today : Date) (s : OfstedState α) :
    Except String (α × OfstedState α) :=
  match s.df with
  | some t => .ok (t, s)
  | none =>
    let file := ofstedCacheFile today
    match List.lookup file s.disk with
    | some t => .ok (t, { s with df := some t })
    | none =>
      match fetchParse with
      | .error e => .error e
      | .ok t => .ok (t, { df := some t, disk := (file, t) :: s.disk,
                           downloads := s.downloads + 1 })

/-! ## Ofsted client (clients/ofsted.py) -/

/-- The `RATINGS` code-to-label table. -/
def RATINGS : List (String × String) :=
  [ ("1", "Outstanding"), ("2", "Good"), ("3", "Requires Improvement"),
    ("4", "Inadequate"), ("8", "Does not apply"), ("9", "No judgement") ]

/-- Python `str()` on the `str | int` argument of `format_rating`. -/
def ratingStr : String ⊕ Int → String
  | .inl s => s
  | .inr n => toString n

/-- Embedding of `OfstedClient.format_rating` (`None` maps to the
not-yet-inspected label; otherwise the stripped string form is looked
up in `RATINGS`, any other value rendering as unknown). -/
def formatRating (ratingCode : Option (String ⊕ Int)) : String :=
  match ratingCode with
  | none => "Not yet inspected"
  | some v =>
    (List.lookup (pyStrip (ratingStr v)) RATINGS).getD
      ("Unknown (" ++ ratingStr v ++ ")")

/-- The Ofsted report URL for a school. -/
def ofstedReportUrl (urn : Int) : String :=
  "https://reports.ofsted.gov.uk/provider/17/" ++ toString urn

def urnKey : String := "urn"
def reportUrlKey : String := "report_url"
def textSuffix : String := "_text"

/-- The current-inspection grade fields of `get_inspection`. -/
def gradeFields : List String :=
  [ "overall_effectiveness", "quality_of_education",
    "behaviour_and_attitudes", "personal_development",
    "leadership_and_management", "early_years_provision",
    "sixth_form_provision" ]

/-- The previous-inspection grade fields of `get_inspection`. -/
def prevGradeFields : List String :=
  [ "previous_overall_effectiveness", "previous_quality_of_education",
    "previous_behaviour_and_attitudes", "previous_personal_development",
    "previous_leadership_and_management" ]

/-- The date/info fields of `get_inspection`. -/
def textFields : List String :=
  [ "school_name", "ofsted_phase", "type_of_education",
    "local_authority", "region", "inspection_start_date",
    "inspection_end_date", "inspection_type", "publication_date",
    "category_of_concern", "number_of_previous_inspections",
    "previous_inspection_start_date", "previous_publication_date" ]

/-- The guard `val is not None and str(val).strip() and
str(val).strip() not in ("", "NULL", "None")` of `get_inspection`,
returning the stripped value when it passes. -/
def keepVal (v : Option String) : Option String :=
  match v with
  | none => none
  | some s =>
    let t := pyStrip s
    if t == "" || t == "NULL" || t == "None" then none else some t

/-- The grade-field loop of `get_inspection`: for each kept field,
emit the code and its human-readable `_text` companion. -/
def gradeEntries (row : Row) (fs : List String) :
    List (String × String) :=
  fs.foldr
    (fun f acc =>
      match keepVal (rowGet row f) with
      | none => acc
      | some code =>
        (f, code) :: (f ++ textSuffix, formatRating (some (.inl code))) :: acc)
    []

/-- The text-field loop of `get_inspection`. -/
def textEntries (row : Row) (fs : List String) :
    List (String × String) :=
  fs.foldr
    (fun f acc =>
      match keepVal (rowGet row f) with
      | none => acc
      | some v => (f, v) :: acc)
    []

/-- The record built by `get_inspection` from the selected row. -/
def buildInspection (urn : Int) (row : Row) : List (String × String) :=
  (urnKey, toString urn)
    :: (gradeEntries row (gradeFields ++ prevGradeFields)
        ++ textEntries row textFields
        ++ [(reportUrlKey, ofstedReportUrl urn)])

/-- The exact-text URN comparison `pl.col("urn") == str(urn)`. -/
def ofstedTextMatch (urn : Int) (r : Row) : Bool :=
  rowGet r urnKey == some (toString urn)

/-- The fallback comparison
`pl.col("urn").cast(pl.Int64, strict=False) == urn`. -/
def ofstedIntMatch (urn : Int) (r : Row) : Bool :=
  (rowGet r urnKey).bind polarsInt? == some urn

/-- Embedding of `OfstedClient.get_inspection`: exact-text match first,
integer-cast fallback when it finds nothing; `none` when both filters
are empty, otherwise the record is built from the last matching row
(`result.to_dicts()[-1]`). -/
def getInspection (urn : Int) (df : List Row) :
    Option (List (String × String)) :=
  let textRows := df.filter (ofstedTextMatch urn)
  let rows := if textRows.isEmpty then df.filter (ofstedIntMatch urn)
              else textRows
  match rows.getLast? with
  | none => none
  | some row => some (buildInspection urn row)

/-- Python dict assignment keyed by an integer (overwrite in place,
insertion order preserved). -/
def upsertInt (acc : List (Int × Row)) (n : Int) (r : Row) :
    List (Int × Row) :=
  if acc.any (fun p => p.1 == n) then
    acc.map (fun p => if p.1 == n then (n, r) else p)
  else acc ++ [(n, r)]

/-- One iteration of the `for row in matched.to_dicts()` loop of
`get_inspections_batch`: a null URN cell is skipped, an unparseable
URN value raises `ValueError` inside `int(...)` which the `continue`
swallows, and otherwise the row overwrites the entry for its URN
(last row wins). -/
def batchStep (acc : List (Int × Row)) (r : Row) : List (Int × Row) :=
  match rowGet r urnKey with
  | none => acc
  | some s =>
    match pyInt? s with
    | none => acc
    | some n => upsertInt acc n r

/-- The last-row-wins accumulation loop of `get_inspections_batch`. -/
def batchCollect (rows : List Row) : List (Int × Row) :=
  rows.foldl batchStep []

/-- Embedding of `OfstedClient.get_inspections_batch`: match rows by
exact text against the stringified URNs, fall back to the integer-cast
match when nothing matches, accumulate last-row-wins per URN, then
re-resolve every kept URN through `get_inspection` (dropping the ones
it cannot find). -/
def getInspectionsBatch (urns : List Int) (df : List Row) :
    List (Int × List (String × String)) :=
  let urnStrs := urns.map toString
  let matchedText := df.filter
    (fun r => (rowGet r urnKey).any (fun s => urnStrs.contains s))
  let matched :=
    if matchedText.isEmpty then
      df.filter (fun r =>
        ((rowGet r urnKey).bind polarsInt?).any (fun n => urns.contains n))
    else matchedText
  (batchCollect matched).filterMap
    (fun p => (getInspection p.1 df).map (fun ins => (p.1, ins)))

/-! ## Server tool-dispatch boundary (server.py) -/

/-- One text content block of a tool response. -/
structure TextContent where
  text : String
deriving DecidableEq

/-- The nine tool handlers dispatched by `call_tool`; each may raise
(modeled by `Except`, the exception's `str(e)` description on the
left). `α` is the argument mapping type. -/
structure Handlers (α : Type) where
  searchSchools : α → Except String (List TextContent)
  getSchoolDetails : α → Except String (List TextContent)
  findSchoolsNearPostcode : α → Except String (List TextContent)
  compareSchools : α → Except String (List TextContent)
  searchEducationStatistics : α → Except String (List TextContent)
  getPublicationDatasets : α → Except String (List TextContent)
  getDatasetMetadata : α → Except String (List TextContent)
  queryDataset : α → Except String (List TextContent)
  getOfstedRatings : α → Except String (List TextContent)

/-- The dispatch chain inside the `try` block of `call_tool`,
including the unknown-tool `ValueError`. -/
def dispatchTool {α : Type} (h : Handlers α) (name : String) (args : α) :
    Except String (List TextContent) :=
  if name == "search_schools" then h.searchSchools args
  else if name == "get_school_details" then h.getSchoolDetails args
  else if name == "find_schools_near_postcode" then h.findSchoolsNearPostcode args
  else if name == "compare_schools" then h.compareSchools args
  else if name == "search_education_statistics" then h.searchEducationStatistics args
  else if name == "get_publication_datasets" then h.getPublicationDatasets args
  else if name == "get_dataset_metadata" then h.getDatasetMetadata args
  else if name == "query_dataset" then h.queryDataset args
  else if name == "get_ofsted_ratings" then h.getOfstedRatings args
  else .error ("Unknown tool: " ++ name)

/-- Embedding of `call_tool`: any exception from the dispatch chain is
converted into a single text block embedding the tool name and the
failure description; nothing propagates. -/
def callTool {α : Type} (h : Handlers α) (name : String) (args : α) :
    List TextContent :=
  match dispatchTool h name args with
  | .ok r => r
  | .error e => [⟨"Error calling " ++ name ++ ": " ++ e⟩]

/-! ## Geographic radius search (`GIASClient.find_schools_near`)

Coordinates are modelled over `ℚ`.  The source computes
`sqrt(((lat_col - lat) * 111)^2 + ((lng_col - lng) * 65)^2)` and
compares / sorts on that value; the model computes the squared
distance and compares it against the squared radius, which selects and
orders the same rows because squaring is monotone on nonnegative
reals.  The source finally attaches the root rounded to two decimals
(`round(d, 2)`) as `distance_km`; the model carries the exact squared
distance alongside each row instead. -/

def latScaleKm : ℚ := 111
def lngScaleKm : ℚ := 65

/-- The squared approximate planar distance of the source's formula. -/
def distSqKm (rowLat rowLng centerLat centerLng : ℚ) : ℚ :=
  ((rowLat - centerLat) * latScaleKm) * ((rowLat - centerLat) * latScaleKm)
    + ((rowLng - centerLng) * lngScaleKm) * ((rowLng - centerLng) * lngScaleKm)

/-- Decides `sqrt dsq ≤ radius` for `dsq ≥ 0` without leaving `ℚ`. -/
def sqrtLeRadius (dsq radius : ℚ) : Bool :=
  decide (0 ≤ radius) && decide (dsq ≤ radius * radius)

/-- The per-row distance computation: the strict `cast(pl.Float64)`
raises on a malformed non-null cell (the `Except`), while a null cell
propagates to a null distance (the inner `Option`). -/
def rowDistSq (centerLat centerLng : ℚ) (r : Row) :
    Except String (Option ℚ) :=
  match rowGet r latCol with
  | none => .ok none
  | some s =>
    match parseDec? s with
    | none => .error ("cast failed: " ++ s)
    | some la =>
      match rowGet r lngCol with
      | none => .ok none
      | some t =>
        match parseDec? t with
        | none => .error ("cast failed: " ++ t)
        | some lo => .ok (some (distSqKm la lo centerLat centerLng))

/-- `with_columns(dist)` over the filtered frame: the first failing
cast aborts. -/
def computeDists (centerLat centerLng : ℚ) :
    List Row → Except String (List (Row × Option ℚ))
  | [] => .ok []
  | r :: rs =>
    match rowDistSq centerLat centerLng r with
    | .error e => .error e
    | .ok od =>
      match computeDists centerLat centerLng rs with
      | .error e => .error e
      | .ok ps => .ok ((r, od) :: ps)

/-- Insertion into a list sorted ascending by the key `k`. -/
def insertByKey {α : Type} (k : α → ℚ) (a : α) : List α → List α
  | [] => [a]
  | b :: l => if k a ≤ k b then a :: b :: l else b :: insertByKey k a l

/-- Ascending sort by the key `k` (the `df.sort("_distance_km")`). -/
def sortByKey {α : Type} (k : α → ℚ) : List α → List α
  | [] => []
  | a :: l => insertByKey k a (sortByKey k l)

/-- The coordinate-presence filter
`Latitude.is_not_null() & (Latitude != "")`. -/
def latPresent (r : Row) : Bool :=
  match rowGet r latCol with
  | some s => s != ""
  | none => false

/-- The `_distance_km <= radius_km` filter over the computed distance
column: a null distance is dropped, and the rows that pass keep their
distance. -/
def keptOf (ps : List (Row × Option ℚ)) (radius : ℚ) : List (Row × ℚ) :=
  ps.filterMap
    (fun p =>
      match p.2 with
      | none => none
      | some d => if sqrtLeRadius d radius then some (p.1, d) else none)

/-- Embedding of `GIASClient.find_schools_near` up to (and including)
the distance filter, sort and truncation; each kept row is paired with
its squared distance. -/
def findSchoolsNearRows (t : Table) (centerLat centerLng radius : ℚ)
    (phase : Option String) (limit : Nat) :
    Except String (List (Row × ℚ)) :=
  let rows0 := openFilter t
  let rows1 := optFilter phaseCol phase rows0
  let rows2 := rows1.filter latPresent
  match computeDists centerLat centerLng rows2 with
  | .error e => .error e
  | .ok ps =>
    .ok ((sortByKey (fun p => p.2) (keptOf ps radius)).take limit)

/-- Whether one source row is selected by the radius search: present
coordinates and squared distance within the squared radius. -/
def distKeep (centerLat centerLng radius : ℚ) (r : Row) : Bool :=
  match rowDistSq centerLat centerLng r with
  | .ok (some d) => sqrtLeRadius d radius
  | _ => false

/-- Row eligibility for the radius search, phrased over the unfiltered
table: non-empty latitude cell and in-radius squared distance. -/
def eligRow (centerLat centerLng radius : ℚ) (r : Row) : Bool :=
  latPresent r && distKeep centerLat centerLng radius r

/-- The full `find_schools_near` pipeline: project the kept rows with
`_select_columns` and `_row_to_dict`, carrying each row's distance
alongside (the source writes it into the dict as `distance_km`). -/
def findSchoolsNear (t : Table) (centerLat centerLng radius : ℚ)
    (phase : Option String) (limit : Nat) :
    Except String (List (List (String × String) × ℚ)) :=
  match findSchoolsNearRows t centerLat centerLng radius phase limit with
  | .error e => .error e
  | .ok l =>
    let avail := SEARCH_COLUMNS.filter (fun c => t.cols.contains c)
    .ok (l.map (fun p => (cleanRow (selectRow avail p.1), p.2)))

/-! ## Claim-side definitions and concrete witness data -/

/-- Truth of the substring match on one column, as a proposition. -/
def matchTrue (r : Row) (c : String) (q : String) : Prop :=
  ∃ s, rowGet r c = some s ∧ strContainsSub (upperStr s) q = true

/-- Modelled from the words of claim C7 (for comparison with the
source): a row passes iff the uppercased query — without any
whitespace trimming — is a substring of the uppercased postcode or
name (digit queries) or of the uppercased name only (digit-free
queries). -/
def claimTextMatch (query : String) (r : Row) : Bool :=
  let q := upperStr query
  let pc := match rowGet r pcCol with
            | some s => strContainsSub (upperStr s) q
            | none => false
  let nm := match rowGet r nameCol with
            | some s => strContainsSub (upperStr s) q
            | none => false
  if hasDigit q then pc || nm else nm

/-- C2 witness request outcomes: today 404, yesterday a transport
error, two days ago a success. -/
def c2Resp : Nat → HttpResult := fun n =>
  if n == 2 then .response 200 ("DATA")
  else if n == 1 then .netError
  else .response 404 ("")

/-- C1 witness data. -/
def c1Resp : Nat → HttpResult := fun _ => .response 200 ("CSV")
def c1Day : Date := ⟨2026, 10, 12⟩
def c1DayA : Date := ⟨2026, 10, 1⟩
def c1DayB : Date := ⟨2026, 10, 31⟩
def c1Gs0 : GiasState String := ⟨none, [], 0⟩
def c1Gs1 : GiasState String :=
  ⟨some ("CSV"), [("gias_2026-10-12.csv", "CSV")], 1⟩
def c1Os0 : OfstedState String := ⟨none, [], 0⟩
def c1Os1 : OfstedState String :=
  ⟨some ("TBL"), [("ofsted_mi_2026-10.parquet", "TBL")], 1⟩

/-- C3 witness data: two inspection rows for URN 100001 (grade 3 then
grade 2) and one for URN 100002. -/
def oeField : String := "overall_effectiveness"
def c3RowOld : Row := [(urnKey, some ("100001")), (oeField, some ("3"))]
def c3RowOther : Row := [(urnKey, some ("100002")), (oeField, some ("1"))]
def c3RowNew : Row := [(urnKey, some ("100001")), (oeField, some ("2"))]
def c3Df : List Row := [c3RowOld, c3RowOther, c3RowNew]

/-- C4 data: a directory table whose URN cell `"0100001"` casts to the
integer 100001 but does not equal the text `"100001"`. -/
def zeroUrnRow : Row := [(urnColG, some ("0100001"))]
def tZero : Table := ⟨[urnColG], [zeroUrnRow]⟩
def c4DfText : List Row := [[(urnKey, some ("300100"))]]
def c4DfInt : List Row := [[(urnKey, some ("0300200"))]]

/-- C5 data: a source cell holding the literal marker string. -/
def nullMarkerRow : Row := [(pcCol, some ("NULL"))]
def c5KeptRow : Row := [(pcCol, some ("AB1 2CD"))]
def c5InsRow : Row := [(urnKey, some ("100001")), (oeField, some (" 2 "))]
def c5UrnRow : Row := [(urnColG, some ("109825")), (pcCol, some ("AB1 2CD"))]
def c5Tbl : Table := ⟨[urnColG, pcCol], [c5UrnRow]⟩
def c5Rec : List (String × String) :=
  [(urnColG, "109825"), (pcCol, "AB1 2CD"), (giasUrlKey, giasDetailUrl 109825)]

/-- C6 witness data: center (0,0), radius 250 km, squared radius
62500; open rows at 1 and 2 degrees latitude are kept (squared
distances 12321 and 49284), a closed row at 1 degree is removed by the
status filter, an empty-latitude row is filtered out, and a row at 30
degrees is outside the radius. -/
def c6RowA : Row :=
  [(statusCol, some ("Open")), (latCol, some ("1")), (lngCol, some ("0"))]
def c6RowB : Row :=
  [(statusCol, some ("Open")), (latCol, some ("2")), (lngCol, some ("0"))]
def c6RowC : Row :=
  [(statusCol, some ("Closed")), (latCol, some ("1")), (lngCol, some ("0"))]
def c6RowE : Row := [(statusCol, some ("Open")), (latCol, some (""))]
def c6RowF : Row :=
  [(statusCol, some ("Open")), (latCol, some ("30")), (lngCol, some ("0"))]
def c6Table : Table :=
  ⟨[statusCol, latCol, lngCol], [c6RowB, c6RowC, c6RowA, c6RowE, c6RowF]⟩
def c6Res : List (Row × ℚ) := [(c6RowA, 12321), (c6RowB, 49284)]

/-- C7 data: the spec's scenario row. -/
def teRow : Row :=
  [(pcCol, some ("TE1 1ST")), (nameCol, some ("Test Academy"))]

/-- C9 witness handlers: every tool succeeds with an empty response
(only the unknown-tool path raises). -/
def c9Handlers : Handlers Unit :=
  ⟨fun _ => .ok [], fun _ => .ok [], fun _ => .ok [],
   fun _ => .ok [], fun _ => .ok [], fun _ => .ok [],
   fun _ => .ok [], fun _ => .ok [], fun _ => .ok []⟩

/-- C10 witness data: a matched row whose URN cell is unparseable. -/
def badUrnRow : Row := [(urnKey, some ("12a34"))]
def goodUrnRow : Row := [(urnKey, some ("100001"))]

/-! ## Supporting lemmas -/

theorem hasSub_nil (l : List Char) : hasSubChars [] l = true := by
  induction l with
  | nil => rfl
  | cons c cs ih => simp [hasSubChars, startsWithChars]

theorem startsWith_self_append (n t : List Char) :
    startsWithChars n (n ++ t) = true := by
  induction n with
  | nil => rfl
  | cons c cs ih => simp [startsWithChars, ih]

theorem hasSub_append_self (p n t : List Char) :
    hasSubChars n (p ++ (n ++ t)) = true := by
  induction p with
  | nil =>
    simp only [List.nil_append]
    cases n with
    | nil => exact hasSub_nil t
    | cons c cs =>
      have h1 : startsWithChars (c :: cs) ((c :: cs) ++ t) = true :=
        startsWith_self_append (c :: cs) t
      simp only [List.cons_append] at h1
      simp [hasSubChars, h1]
  | cons c cs ih => simp [hasSubChars, ih]

theorem strContains_msg_name (a b c d : String) :
    strContainsSub (((a ++ b) ++ c) ++ d) b = true := by
  unfold strContainsSub
  have hd : (((a ++ b) ++ c) ++ d).data
      = a.data ++ (b.data ++ (c.data ++ d.data)) := by
    simp [String.data_append]
  rw [hd]
  exact hasSub_append_self a.data b.data (c.data ++ d.data)

theorem strContains_msg_err (a d : String) :
    strContainsSub (a ++ d) d = true := by
  unfold strContainsSub
  have hd : (a ++ d).data = a.data ++ (d.data ++ []) := by
    simp [String.data_append]
  rw [hd]
  exact hasSub_append_self a.data d.data []

/-! ## C8: rating-code translation -/

/-- C8 (corrected labels): the rating translator is a total pure
function; null maps to the not-yet-inspected label, trimmed codes map
through the fixed table (accepting text or integer input), and every
other non-null input renders as unknown with the original input
embedded. -/
theorem formatRating_characterisation :
    formatRating none = "Not yet inspected"
    ∧ (∀ v : String ⊕ Int, pyStrip (ratingStr v) = "1" →
        formatRating (some v) = "Outstanding")
    ∧ (∀ v : String ⊕ Int, pyStrip (ratingStr v) = "2" →
        formatRating (some v) = "Good")
    ∧ (∀ v : String ⊕ Int, pyStrip (ratingStr v) = "3" →
        formatRating (some v) = "Requires Improvement")
    ∧ (∀ v : String ⊕ Int, pyStrip (ratingStr v) = "4" →
        formatRating (some v) = "Inadequate")
    ∧ (∀ v : String ⊕ Int, pyStrip (ratingStr v) = "8" →
        formatRating (some v) = "Does not apply")
    ∧ (∀ v : String ⊕ Int, pyStrip (ratingStr v) = "9" →
        formatRating (some v) = "No judgement")
    ∧ (∀ v : String ⊕ Int,
        pyStrip (ratingStr v) ∉ (["1", "2", "3", "4", "8", "9"] : List String) →
        formatRating (some v) = "Unknown (" ++ ratingStr v ++ ")") := by
  refine ⟨rfl, ?_, ?_, ?_, ?_, ?_, ?_, ?_⟩
  · intro v h
    show (List.lookup (pyStrip (ratingStr v)) RATINGS).getD
      ("Unknown (" ++ ratingStr v ++ ")") = _
    rw [h]
    rfl
  · intro v h
    show (List.lookup (pyStrip (ratingStr v)) RATINGS).getD
      ("Unknown (" ++ ratingStr v ++ ")") = _
    rw [h]
    rfl
  · intro v h
    show (List.lookup (pyStrip (ratingStr v)) RATINGS).getD
      ("Unknown (" ++ ratingStr v ++ ")") = _
    rw [h]
    rfl
  · intro v h
    show (List.lookup (pyStrip (ratingStr v)) RATINGS).getD
      ("Unknown (" ++ ratingStr v ++ ")") = _
    rw [h]
    rfl
  · intro v h
    show (List.lookup (pyStrip (ratingStr v)) RATINGS).getD
      ("Unknown (" ++ ratingStr v ++ ")") = _
    rw [h]
    rfl
  · intro v h
    show (List.lookup (pyStrip (ratingStr v)) RATINGS).getD
      ("Unknown (" ++ ratingStr v ++ ")") = _
    rw [h]
    rfl
  · intro v h
    simp only [List.mem_cons, List.not_mem_nil, or_false] at h
    push_neg at h
    obtain ⟨h1, h2, h3, h4, h8, h9⟩ := h
    have e1 : (pyStrip (ratingStr v) == "1") = false := beq_eq_false_iff_ne.mpr h1
    have e2 : (pyStrip (ratingStr v) == "2") = false := beq_eq_false_iff_ne.mpr h2
    have e3 : (pyStrip (ratingStr v) == "3") = false := beq_eq_false_iff_ne.mpr h3
    have e4 : (pyStrip (ratingStr v) == "4") = false := beq_eq_false_iff_ne.mpr h4
    have e8 : (pyStrip (ratingStr v) == "8") = false := beq_eq_false_iff_ne.mpr h8
    have e9 : (pyStrip (ratingStr v) == "9") = false := beq_eq_false_iff_ne.mpr h9
    have hl : List.lookup (pyStrip (ratingStr v)) RATINGS = none := by
      simp [RATINGS, List.lookup, e1, e2, e3, e4, e8, e9]
    show (List.lookup (pyStrip (ratingStr v)) RATINGS).getD
      ("Unknown (" ++ ratingStr v ++ ")") = _
    rw [hl]
    rfl

/-- C8 counterexample: the claim names the labels `"Does Not Apply"`
and `"No Judgement"`, but the source's `RATINGS` table renders codes 8
and 9 in sentence case. -/
theorem formatRating_label_case_cex :
    formatRating (some (Sum.inl ("8"))) = "Does not apply"
    ∧ formatRating (some (Sum.inl ("8"))) ≠ "Does Not Apply"
    ∧ formatRating (some (Sum.inl ("9"))) = "No judgement"
    ∧ formatRating (some (Sum.inl ("9"))) ≠ "No Judgement" := by
  decide

theorem formatRating_characterisation_witness :
    formatRating (some (Sum.inl (" 1 "))) = "Outstanding"
    ∧ formatRating (some (Sum.inr 2)) = "Good"
    ∧ formatRating (some (Sum.inl ("5"))) = "Unknown (" ++ ratingStr (Sum.inl ("5")) ++ ")" :=
  ⟨formatRating_characterisation.2.1 (Sum.inl (" 1 ")) (by decide),
   formatRating_characterisation.2.2.1 (Sum.inr 2) (by decide),
   formatRating_characterisation.2.2.2.2.2.2.2 (Sum.inl ("5")) (by decide)⟩

/-! ## C9: tool-invocation boundary -/

/-- C9: whenever the dispatch chain (a handler or the unknown-tool
check) raises, `call_tool` returns exactly one text block embedding
the tool name and the exception description, and nothing else. -/
theorem callTool_error_boundary {α : Type} (h : Handlers α)
    (name : String) (args : α) (e : String)
    (hd : dispatchTool h name args = .error e) :
    callTool h name args = [⟨"Error calling " ++ name ++ ": " ++ e⟩]
    ∧ (callTool h name args).length = 1
    ∧ strContainsSub ("Error calling " ++ name ++ ": " ++ e) name = true
    ∧ strContainsSub ("Error calling " ++ name ++ ": " ++ e) e = true := by
  refine ⟨?_, ?_, ?_, ?_⟩
  · unfold callTool
    rw [hd]
  · unfold callTool
    rw [hd]
    rfl
  · exact strContains_msg_name ("Error calling ") name (": ") e
  · exact strContains_msg_err (("Error calling " ++ name) ++ (": ")) e

theorem callTool_error_boundary_witness :
    callTool c9Handlers ("bogus") ()
        = [⟨"Error calling " ++ "bogus" ++ ": " ++ ("Unknown tool: " ++ "bogus")⟩]
    ∧ (callTool c9Handlers ("bogus") ()).length = 1
    ∧ strContainsSub ("Error calling " ++ "bogus" ++ ": " ++ ("Unknown tool: " ++ "bogus")) ("bogus") = true
    ∧ strContainsSub ("Error calling " ++ "bogus" ++ ": " ++ ("Unknown tool: " ++ "bogus")) ("Unknown tool: " ++ "bogus") = true :=
  callTool_error_boundary c9Handlers ("bogus") () ("Unknown tool: " ++ "bogus") rfl

/-! ## C10: unparseable URN rows are silently skipped -/

/-- C10: in the accumulation loop of `get_inspections_batch`, a
matched row whose stored URN value does not parse as an integer is
silently skipped — removing it from the input leaves the collected
mapping unchanged, so it never surfaces in the result and never
raises. -/
theorem batchCollect_skips_unparseable (pre post : List Row) (r : Row)
    (s : String) (hv : rowGet r urnKey = some s) (hp : pyInt? s = none) :
    batchCollect (pre ++ r :: post) = batchCollect (pre ++ post) := by
  have hstep : ∀ acc : List (Int × Row), batchStep acc r = acc := by
    intro acc
    unfold batchStep
    rw [hv]
    show (match pyInt? s with
          | none => acc
          | some n => upsertInt acc n r) = acc
    rw [hp]
  unfold batchCollect
  rw [List.foldl_append, List.foldl_append, List.foldl_cons, hstep]

theorem batchCollect_skips_unparseable_witness :
    batchCollect ([] ++ badUrnRow :: [goodUrnRow])
      = batchCollect ([] ++ [goodUrnRow]) :=
  batchCollect_skips_unparseable [] [goodUrnRow] badUrnRow ("12a34")
    (by decide) (by decide)

/-! ## C2: dated-URL download with five-day lookback -/

theorem tryOnce_of_not_success {r : HttpResult}
    (h : httpSuccess r = false) : tryOnce r = none := by
  cases ht : tryOnce r with
  | none => rfl
  | some b =>
    unfold httpSuccess at h
    rw [ht] at h
    simp at h

theorem tryOnce_of_response200 {r : HttpResult} {b : String}
    (h : r = .response 200 b) : tryOnce r = some b := by
  rw [h]
  rfl

/-- C2: the dated-URL download returns the payload of the first of the
five candidate dates (offsets 0..4 from today) whose request returns
status 200, attempting exactly the offsets up to and including that
one; it fails with the retrieval error if and only if all five
attempts fail or return a non-success status, in which case all five
offsets were attempted. -/
theorem downloadCsv_first_success (resp : Nat → HttpResult) :
    (∀ i b, i < 5 → resp i = .response 200 b →
      (∀ j, j < i → httpSuccess (resp j) = false) →
      downloadCsv resp = .ok b
        ∧ downloadTrace resp lookbackDays = (List.range (i + 1), .ok b))
    ∧ ((∀ j, j < 5 → httpSuccess (resp j) = false) →
      downloadCsv resp = .error giasErrMsg
        ∧ downloadTrace resp lookbackDays = (lookbackDays, .error giasErrMsg)) := by
  constructor
  · intro i b hi hr hjs
    have hti : tryOnce (resp i) = some b := tryOnce_of_response200 hr
    have hrange : ∀ k : Nat, k < i → tryOnce (resp k) = none :=
      fun k hk => tryOnce_of_not_success (hjs k hk)
    interval_cases i
    · have e : downloadTrace resp lookbackDays = ([0], .ok b) := by
        simp [lookbackDays, downloadTrace, hti]
      exact ⟨by simp [downloadCsv, e], by rw [e]; rfl⟩
    · have e : downloadTrace resp lookbackDays = ([0, 1], .ok b) := by
        simp [lookbackDays, downloadTrace, hti, hrange 0 (by norm_num)]
      exact ⟨by simp [downloadCsv, e], by rw [e]; rfl⟩
    · have e : downloadTrace resp lookbackDays = ([0, 1, 2], .ok b) := by
        simp [lookbackDays, downloadTrace, hti, hrange 0 (by norm_num),
          hrange 1 (by norm_num)]
      exact ⟨by simp [downloadCsv, e], by rw [e]; rfl⟩
    · have e : downloadTrace resp lookbackDays = ([0, 1, 2, 3], .ok b) := by
        simp [lookbackDays, downloadTrace, hti, hrange 0 (by norm_num),
          hrange 1 (by norm_num), hrange 2 (by norm_num)]
      exact ⟨by simp [downloadCsv, e], by rw [e]; rfl⟩
    · have e : downloadTrace resp lookbackDays = ([0, 1, 2, 3, 4], .ok b) := by
        simp [lookbackDays, downloadTrace, hti, hrange 0 (by norm_num),
          hrange 1 (by norm_num), hrange 2 (by norm_num),
          hrange 3 (by norm_num)]
      exact ⟨by simp [downloadCsv, e], by rw [e]; rfl⟩
  · intro hall
    have hr : ∀ k : Nat, k < 5 → tryOnce (resp k) = none :=
      fun k hk => tryOnce_of_not_success (hall k hk)
    have e : downloadTrace resp lookbackDays
        = (lookbackDays, .error giasErrMsg) := by
      simp [lookbackDays, downloadTrace, hr 0 (by norm_num),
        hr 1 (by norm_num), hr 2 (by norm_num), hr 3 (by norm_num),
        hr 4 (by norm_num)]
    exact ⟨by simp [downloadCsv, e], e⟩

theorem downloadCsv_first_success_witness :
    downloadCsv c2Resp = .ok ("DATA")
      ∧ downloadTrace c2Resp lookbackDays = (List.range (2 + 1), .ok ("DATA")) :=
  (downloadCsv_first_success c2Resp).1 2 ("DATA") (by norm_num) (by decide)
    (by decide)

/-! ## C1: at most one download per freshness period -/

/-- C1: for both clients, if a cache-ensure call succeeds it performs
at most one download, a second call within the same freshness period
(same day for GIAS; same year-month for Ofsted, via `monthKey d1 =
monthKey d2`) returns the very same table with no further download,
and — when the first call started with an empty in-memory reference —
even a caller that lost the in-memory reference is served the same
table from the on-disk cache entry with no further download. -/
theorem ensureData_at_most_one_download
    {α β : Type} (parse : String → α) (today : Date)
    (resp : Nat → HttpResult) (s : GiasState α) (t : α) (s' : GiasState α)
    (fetchParse : Except String β) (d1 d2 : Date)
    (os : OfstedState β) (u : β) (os' : OfstedState β)
    (hg : giasEnsureData parse today resp s = .ok (t, s'))
    (hm : monthKey d1 = monthKey d2)
    (ho : ofstedEnsureData fetchParse d1 os = .ok (u, os')) :
    (s'.downloads ≤ s.downloads + 1
      ∧ giasEnsureData parse today resp s' = .ok (t, s')
      ∧ (s.df = none →
          ∃ s2 : GiasState α,
            giasEnsureData parse today resp { s' with df := none } = .ok (t, s2)
              ∧ s2.downloads = s'.downloads))
    ∧ (os'.downloads ≤ os.downloads + 1
      ∧ ofstedEnsureData fetchParse d2 os' = .ok (u, os')
      ∧ (os.df = none →
          ∃ os2 : OfstedState β,
            ofstedEnsureData fetchParse d2 { os' with df := none } = .ok (u, os2)
              ∧ os2.downloads = os'.downloads)) := by
  obtain ⟨sdf, sdisk, sdl⟩ := s
  obtain ⟨odf, odisk, odl⟩ := os
  have hfile : ofstedCacheFile d1 = ofstedCacheFile d2 := by
    unfold ofstedCacheFile
    rw [hm]
  constructor
  · cases sdf with
    | some t0 =>
      simp only [giasEnsureData] at hg
      obtain ⟨ht, hs⟩ : t0 = t ∧ (⟨some t0, sdisk, sdl⟩ : GiasState α) = s' := by
        simpa using hg
      subst ht
      subst hs
      refine ⟨by simp, by simp [giasEnsureData], ?_⟩
      intro hnone
      simp at hnone
    | none =>
      simp only [giasEnsureData] at hg
      cases hlk : List.lookup (giasCacheFile today) sdisk with
      | some bytes =>
        rw [hlk] at hg
        obtain ⟨ht, hs⟩ :
            parse bytes = t
              ∧ (⟨some (parse bytes), sdisk, sdl⟩ : GiasState α) = s' := by
          simpa using hg
        subst ht
        subst hs
        refine ⟨by simp, by simp [giasEnsureData], ?_⟩
        intro _
        refine ⟨⟨some (parse bytes), sdisk, sdl⟩, ?_, rfl⟩
        simp [giasEnsureData, hlk]
      | none =>
        rw [hlk] at hg
        cases hdl : downloadCsv resp with
        | error e =>
          rw [hdl] at hg
          simp at hg
        | ok bytes =>
          rw [hdl] at hg
          obtain ⟨ht, hs⟩ :
              parse bytes = t
                ∧ (⟨some (parse bytes),
                    (giasCacheFile today, bytes) :: sdisk, sdl + 1⟩ :
                      GiasState α) = s' := by
            simpa using hg
          subst ht
          subst hs
          refine ⟨by simp, by simp [giasEnsureData], ?_⟩
          intro _
          refine ⟨⟨some (parse bytes),
            (giasCacheFile today, bytes) :: sdisk, sdl + 1⟩, ?_, rfl⟩
          simp [giasEnsureData, List.lookup]
  · cases odf with
    | some u0 =>
      simp only [ofstedEnsureData] at ho
      obtain ⟨hu, hs⟩ : u0 = u ∧ (⟨some u0, odisk, odl⟩ : OfstedState β) = os' := by
        simpa using ho
      subst hu
      subst hs
      refine ⟨by simp, by simp [ofstedEnsureData], ?_⟩
      intro hnone
      simp at hnone
    | none =>
      simp only [ofstedEnsureData] at ho
      cases hlk : List.lookup (ofstedCacheFile d1) odisk with
      | some t1 =>
        rw [hlk] at ho
        obtain ⟨hu, hs⟩ :
            t1 = u ∧ (⟨some t1, odisk, odl⟩ : OfstedState β) = os' := by
          simpa using ho
        subst hu
        subst hs
        refine ⟨by simp, by simp [ofstedEnsureData], ?_⟩
        intro _
        refine ⟨⟨some t1, odisk, odl⟩, ?_, rfl⟩
        have hlk2 : List.lookup (ofstedCacheFile d2) odisk = some t1 :=
          hfile ▸ hlk
        simp [ofstedEnsureData, hlk2]
      | none =>
        rw [hlk] at ho
        cases hdl : fetchParse with
        | error e =>
          rw [hdl] at ho
          simp at ho
        | ok t1 =>
          rw [hdl] at ho
          obtain ⟨hu, hs⟩ :
              t1 = u
                ∧ (⟨some t1, (ofstedCacheFile d1, t1) :: odisk, odl + 1⟩ :
                    OfstedState β) = os' := by
            simpa using ho
          subst hu
          subst hs
          refine ⟨by simp, by simp [ofstedEnsureData], ?_⟩
          intro _
          refine ⟨⟨some t1, (ofstedCacheFile d1, t1) :: odisk, odl + 1⟩, ?_, rfl⟩
          have hlk2 : List.lookup (ofstedCacheFile d2)
              ((ofstedCacheFile d1, t1) :: odisk) = some t1 := by
            rw [← hfile]
            simp [List.lookup]
          simp [ofstedEnsureData, hlk2]

theorem ensureData_at_most_one_download_witness :
    (c1Gs1.downloads ≤ c1Gs0.downloads + 1
      ∧ giasEnsureData (fun b => b) c1Day c1Resp c1Gs1 = .ok (("CSV"), c1Gs1)
      ∧ (c1Gs0.df = none →
          ∃ s2 : GiasState String,
            giasEnsureData (fun b => b) c1Day c1Resp { c1Gs1 with df := none }
                = .ok (("CSV"), s2)
              ∧ s2.downloads = c1Gs1.downloads))
    ∧ (c1Os1.downloads ≤ c1Os0.downloads + 1
      ∧ ofstedEnsureData (.ok ("TBL")) c1DayB c1Os1 = .ok (("TBL"), c1Os1)
      ∧ (c1Os0.df = none →
          ∃ os2 : OfstedState String,
            ofstedEnsureData (.ok ("TBL")) c1DayB { c1Os1 with df := none }
                = .ok (("TBL"), os2)
              ∧ os2.downloads = c1Os1.downloads)) :=
  ensureData_at_most_one_download (fun b => b) c1Day c1Resp c1Gs0 ("CSV")
    c1Gs1 (.ok ("TBL")) c1DayA c1DayB c1Os0 ("TBL") c1Os1 rfl rfl rfl

/-! ## C3: batch lookup agrees with single lookup -/

/-- C3: every URN present in the batch result maps to exactly the
record that the single-record lookup returns for that URN (so in
particular all grade fields agree), and that record is built from the
last-appearing matching row in source order. -/
theorem batch_agrees_with_single (urns : List Int) (df : List Row)
    (u : Int) (rec : List (String × String)) (r : Row)
    (hmem : (u, rec) ∈ getInspectionsBatch urns df)
    (hlast : (df.filter (ofstedTextMatch u)).getLast? = some r) :
    getInspection u df = some rec ∧ rec = buildInspection u r := by
  have hne : (df.filter (ofstedTextMatch u)).isEmpty = false := by
    cases hfe : df.filter (ofstedTextMatch u) with
    | nil => rw [hfe] at hlast; simp at hlast
    | cons a l => rfl
  have hsingle : getInspection u df = some (buildInspection u r) := by
    simp [getInspection, hne, hlast]
  have hbatch : getInspection u df = some rec := by
    simp only [getInspectionsBatch] at hmem
    obtain ⟨p, hp, hf⟩ := List.mem_filterMap.mp hmem
    obtain ⟨ins, ho, hpair⟩ := Option.map_eq_some'.mp hf
    cases hpair
    exact ho
  refine ⟨hbatch, ?_⟩
  have h2 := hbatch
  rw [hsingle] at h2
  exact (Option.some_inj.mp h2).symm

theorem batch_agrees_with_single_witness :
    getInspection 100001 c3Df = some (buildInspection 100001 c3RowNew)
    ∧ buildInspection 100001 c3RowNew = buildInspection 100001 c3RowNew :=
  batch_agrees_with_single [100001, 100002] c3Df 100001
    (buildInspection 100001 c3RowNew) c3RowNew (by decide) (by decide)

/-! ## C4: identifier comparison policy -/

/-- C4 (amended): the inspection lookup attempts the exact-text match
first and only when it finds nothing falls back to the numeric-cast
comparison before reporting not-found; the school-directory lookup by
URN performs only the exact-text match and reports not-found without
any numeric fallback. -/
theorem urn_lookup_match_policy (t : Table) (df2 df3 : List Row)
    (u1 u2 u3 : Int)
    (h1 : t.rows.filter (giasTextMatch u1) = [])
    (h2 : df2.filter (ofstedTextMatch u2) ≠ [])
    (h3 : df3.filter (ofstedTextMatch u3) = []) :
    getSchoolByUrn t u1 = none
    ∧ getInspection u2 df2
        = ((df2.filter (ofstedTextMatch u2)).getLast?).map (buildInspection u2)
    ∧ getInspection u3 df3
        = ((df3.filter (ofstedIntMatch u3)).getLast?).map (buildInspection u3) := by
  refine ⟨?_, ?_, ?_⟩
  · simp [getSchoolByUrn, h1]
  · have hne : (df2.filter (ofstedTextMatch u2)).isEmpty = false := by
      cases hfe : df2.filter (ofstedTextMatch u2) with
      | nil => exact absurd hfe h2
      | cons a l => rfl
    cases hl : (df2.filter (ofstedTextMatch u2)).getLast? with
    | none => simp [getInspection, hne, hl]
    | some row => simp [getInspection, hne, hl]
  · have he : (df3.filter (ofstedTextMatch u3)).isEmpty = true := by
      rw [h3]
      rfl
    cases hl : (df3.filter (ofstedIntMatch u3)).getLast? with
    | none => simp [getInspection, he, hl]
    | some row => simp [getInspection, he, hl]

/-- C4 counterexample: for a table whose URN cell is `"0100001"`, the
numeric-cast comparison against 100001 matches a row, yet
`get_school_by_urn` reports not-found — the school-directory lookup
never performs the claimed numeric fallback. -/
theorem urn_lookup_no_numeric_fallback_cex :
    getSchoolByUrn tZero 100001 = none
    ∧ tZero.rows.filter
        (fun r => (rowGet r urnColG).bind polarsInt? == some 100001) ≠ [] := by
  decide

theorem urn_lookup_match_policy_witness :
    getSchoolByUrn tZero 100001 = none
    ∧ getInspection 300100 c4DfText
        = ((c4DfText.filter (ofstedTextMatch 300100)).getLast?).map
            (buildInspection 300100)
    ∧ getInspection 300200 c4DfInt
        = ((c4DfInt.filter (ofstedIntMatch 300200)).getLast?).map
            (buildInspection 300200) :=
  urn_lookup_match_policy tZero c4DfText c4DfInt 100001 300100 300200
    (by decide) (by decide) (by decide)

/-! ## C5: omission of null-equivalent values in formatted output -/

theorem upsertStr_mem {acc : List (String × String)} {k v : String}
    {p : String × String} (hp : p ∈ upsertStr acc k v) :
    p ∈ acc ∨ p = (k, v) := by
  unfold upsertStr at hp
  by_cases h : acc.any (fun q => q.1 == k) = true
  · rw [if_pos h] at hp
    obtain ⟨q, hq, he⟩ := List.mem_map.mp hp
    by_cases hk : (q.1 == k) = true
    · rw [if_pos hk] at he
      exact Or.inr he.symm
    · rw [if_neg hk] at he
      rw [← he]
      exact Or.inl hq
  · rw [if_neg h] at hp
    rcases List.mem_append.mp hp with h1 | h2
    · exact Or.inl h1
    · right
      simpa using h2

theorem cleanStep_fold_mem (r : Row) :
    ∀ (acc : List (String × String)) (p : String × String),
      p ∈ r.foldl cleanStep acc →
      p ∈ acc ∨ ∃ k v, (k, some v) ∈ r ∧ v ≠ "" ∧ p = (renameKey k, v) := by
  induction r with
  | nil =>
    intro acc p hp
    exact Or.inl hp
  | cons kv rest ih =>
    obtain ⟨k0, v0opt⟩ := kv
    intro acc p hp
    rw [List.foldl_cons] at hp
    rcases ih (cleanStep acc (k0, v0opt)) p hp with hacc | ⟨k, v, hkv, hv, hpe⟩
    · cases v0opt with
      | none => exact Or.inl hacc
      | some v0 =>
        by_cases hv0 : v0 = ""
        · subst hv0
          exact Or.inl hacc
        · have he : cleanStep acc (k0, some v0)
              = upsertStr acc (renameKey k0) v0 := by
            unfold cleanStep
            simp [hv0]
          rw [he] at hacc
          rcases upsertStr_mem hacc with hmem | hpe
          · exact Or.inl hmem
          · exact Or.inr ⟨k0, v0, List.mem_cons_self _ _, hv0, hpe⟩
    · exact Or.inr ⟨k, v, List.mem_cons_of_mem _ hkv, hv, hpe⟩

theorem keepVal_some {o : Option String} {t : String}
    (h : keepVal o = some t) :
    ∃ v, o = some v ∧ pyStrip v ≠ "" ∧ pyStrip v ≠ "NULL"
      ∧ pyStrip v ≠ "None" ∧ t = pyStrip v := by
  cases o with
  | none => simp [keepVal] at h
  | some s =>
    simp only [keepVal] at h
    split at h
    · simp at h
    · rename_i hb
      simp only [Bool.or_eq_true, beq_iff_eq, not_or] at hb
      exact ⟨s, rfl, hb.1.1, hb.1.2, hb.2, (Option.some_inj.mp h).symm⟩

theorem gradeEntries_mem {row : Row} {fs : List String}
    {p : String × String} (hp : p ∈ gradeEntries row fs) :
    ∃ f, f ∈ fs ∧ ∃ c, keepVal (rowGet row f) = some c
      ∧ (p = (f, c) ∨ p = (f ++ textSuffix, formatRating (some (.inl c)))) := by
  induction fs with
  | nil => simp [gradeEntries] at hp
  | cons f rest ih =>
    have he : gradeEntries row (f :: rest)
        = (match keepVal (rowGet row f) with
           | none => gradeEntries row rest
           | some code =>
             (f, code) :: (f ++ textSuffix, formatRating (some (.inl code)))
               :: gradeEntries row rest) := rfl
    rw [he] at hp
    cases hk : keepVal (rowGet row f) with
    | none =>
      rw [hk] at hp
      obtain ⟨g, hg, hrest⟩ := ih hp
      exact ⟨g, List.mem_cons_of_mem _ hg, hrest⟩
    | some code =>
      rw [hk] at hp
      rcases List.mem_cons.mp hp with h1 | hp2
      · exact ⟨f, List.mem_cons_self _ _, code, hk, Or.inl h1⟩
      · rcases List.mem_cons.mp hp2 with h2 | hp3
        · exact ⟨f, List.mem_cons_self _ _, code, hk, Or.inr h2⟩
        · obtain ⟨g, hg, hrest⟩ := ih hp3
          exact ⟨g, List.mem_cons_of_mem _ hg, hrest⟩

theorem textEntries_mem {row : Row} {fs : List String}
    {p : String × String} (hp : p ∈ textEntries row fs) :
    ∃ f, f ∈ fs ∧ ∃ c, keepVal (rowGet row f) = some c ∧ p = (f, c) := by
  induction fs with
  | nil => simp [textEntries] at hp
  | cons f rest ih =>
    have he : textEntries row (f :: rest)
        = (match keepVal (rowGet row f) with
           | none => textEntries row rest
           | some v => (f, v) :: textEntries row rest) := rfl
    rw [he] at hp
    cases hk : keepVal (rowGet row f) with
    | none =>
      rw [hk] at hp
      obtain ⟨g, hg, hrest⟩ := ih hp
      exact ⟨g, List.mem_cons_of_mem _ hg, hrest⟩
    | some v =>
      rw [hk] at hp
      rcases List.mem_cons.mp hp with h1 | hp2
      · exact ⟨f, List.mem_cons_self _ _, v, hk, h1⟩
      · obtain ⟨g, hg, hrest⟩ := ih hp2
        exact ⟨g, List.mem_cons_of_mem _ hg, hrest⟩

theorem upsertStr_key_self (acc : List (String × String)) (k v : String) :
    k ∈ (upsertStr acc k v).map Prod.fst := by
  unfold upsertStr
  by_cases h : acc.any (fun q => q.1 == k) = true
  · rw [if_pos h]
    obtain ⟨q, hq, hqk⟩ := List.any_eq_true.mp h
    refine List.mem_map.mpr ⟨(k, v), List.mem_map.mpr ⟨q, hq, ?_⟩, rfl⟩
    rw [if_pos hqk]
  · rw [if_neg h, List.map_append]
    exact List.mem_append.mpr (Or.inr (by simp))

theorem upsertStr_key_mono {acc : List (String × String)} {key : String}
    (k v : String) (h : key ∈ acc.map Prod.fst) :
    key ∈ (upsertStr acc k v).map Prod.fst := by
  unfold upsertStr
  by_cases hc : acc.any (fun q => q.1 == k) = true
  · rw [if_pos hc]
    obtain ⟨p, hp, hpk⟩ := List.mem_map.mp h
    by_cases hk : (p.1 == k) = true
    · have hkey : key = k := by
        rw [← hpk]
        exact beq_iff_eq.mp hk
      refine List.mem_map.mpr
        ⟨(k, v), List.mem_map.mpr ⟨p, hp, by rw [if_pos hk]⟩, ?_⟩
      rw [hkey]
    · exact List.mem_map.mpr
        ⟨p, List.mem_map.mpr ⟨p, hp, by rw [if_neg hk]⟩, hpk⟩
  · rw [if_neg hc, List.map_append]
    exact List.mem_append.mpr (Or.inl h)

theorem cleanStep_fold_keys_mono (r : Row) :
    ∀ (acc : List (String × String)) (key : String),
      key ∈ acc.map Prod.fst →
      key ∈ (r.foldl cleanStep acc).map Prod.fst := by
  induction r with
  | nil =>
    intro acc key h
    exact h
  | cons kv rest ih =>
    obtain ⟨k0, v0opt⟩ := kv
    intro acc key h
    rw [List.foldl_cons]
    apply ih
    cases v0opt with
    | none => exact h
    | some v0 =>
      by_cases hv : v0 = ""
      · subst hv
        exact h
      · have he : cleanStep acc (k0, some v0)
            = upsertStr acc (renameKey k0) v0 := by
          unfold cleanStep
          simp [hv]
        rw [he]
        exact upsertStr_key_mono _ _ h

theorem cleanStep_fold_retains (r : Row) :
    ∀ (acc : List (String × String)) (k v : String),
      (k, some v) ∈ r → v ≠ "" →
      renameKey k ∈ (r.foldl cleanStep acc).map Prod.fst := by
  induction r with
  | nil =>
    intro acc k v h _
    cases h
  | cons kv rest ih =>
    intro acc k v hkv hv
    rw [List.foldl_cons]
    rcases List.mem_cons.mp hkv with heq | hmem
    · apply cleanStep_fold_keys_mono rest
      rw [← heq]
      have he : cleanStep acc (k, some v) = upsertStr acc (renameKey k) v := by
        unfold cleanStep
        simp [hv]
      rw [he]
      exact upsertStr_key_self acc (renameKey k) v
    · exact ih _ k v hmem hv

theorem rawStep_fold_mem (r : Row) :
    ∀ (acc : List (String × String)) (p : String × String),
      p ∈ r.foldl rawStep acc →
      p ∈ acc ∨ ∃ k v, (k, some v) ∈ r ∧ v ≠ "" ∧ p = (k, v) := by
  induction r with
  | nil =>
    intro acc p hp
    exact Or.inl hp
  | cons kv rest ih =>
    obtain ⟨k0, v0opt⟩ := kv
    intro acc p hp
    rw [List.foldl_cons] at hp
    rcases ih (rawStep acc (k0, v0opt)) p hp with hacc | ⟨k, v, hkv, hv, hpe⟩
    · cases v0opt with
      | none => exact Or.inl hacc
      | some v0 =>
        by_cases hv0 : v0 = ""
        · subst hv0
          exact Or.inl hacc
        · have he : rawStep acc (k0, some v0) = upsertStr acc k0 v0 := by
            unfold rawStep
            simp [hv0]
          rw [he] at hacc
          rcases upsertStr_mem hacc with hmem | hpe
          · exact Or.inl hmem
          · exact Or.inr ⟨k0, v0, List.mem_cons_self _ _, hv0, hpe⟩
    · exact Or.inr ⟨k, v, List.mem_cons_of_mem _ hkv, hv, hpe⟩

theorem rawStep_fold_keys_mono (r : Row) :
    ∀ (acc : List (String × String)) (key : String),
      key ∈ acc.map Prod.fst →
      key ∈ (r.foldl rawStep acc).map Prod.fst := by
  induction r with
  | nil =>
    intro acc key h
    exact h
  | cons kv rest ih =>
    obtain ⟨k0, v0opt⟩ := kv
    intro acc key h
    rw [List.foldl_cons]
    apply ih
    cases v0opt with
    | none => exact h
    | some v0 =>
      by_cases hv : v0 = ""
      · subst hv
        exact h
      · have he : rawStep acc (k0, some v0) = upsertStr acc k0 v0 := by
          unfold rawStep
          simp [hv]
        rw [he]
        exact upsertStr_key_mono _ _ h

theorem rawStep_fold_retains (r : Row) :
    ∀ (acc : List (String × String)) (k v : String),
      (k, some v) ∈ r → v ≠ "" →
      k ∈ (r.foldl rawStep acc).map Prod.fst := by
  induction r with
  | nil =>
    intro acc k v h _
    cases h
  | cons kv rest ih =>
    intro acc k v hkv hv
    rw [List.foldl_cons]
    rcases List.mem_cons.mp hkv with heq | hmem
    · apply rawStep_fold_keys_mono rest
      rw [← heq]
      have he : rawStep acc (k, some v) = upsertStr acc k v := by
        unfold rawStep
        simp [hv]
      rw [he]
      exact upsertStr_key_self acc k v
    · exact ih _ k v hmem hv

/-- C5 (amended): the search-result projection `_row_to_dict` omits
exactly the null and empty-string cells — every emitted entry comes
from a non-null, non-empty source cell, and conversely every non-null,
non-empty cell (including marker strings and whitespace-only values)
keeps its key in the output; the directory single-record form
(`get_school_by_urn`) follows the same null/empty-only rule, every
entry of its returned record being the detail URL or a non-null,
non-empty cell of the matched row; the single inspection record
additionally omits whitespace-only cells and the literal markers
`"NULL"`/`"None"` after trimming. -/
theorem output_omission_policy :
    (∀ (r : Row) (p : String × String), p ∈ cleanRow r →
      ∃ k v, (k, some v) ∈ r ∧ v ≠ "" ∧ p = (renameKey k, v))
    ∧ (∀ (r : Row) (k v : String), (k, some v) ∈ r → v ≠ "" →
        renameKey k ∈ (cleanRow r).map Prod.fst)
    ∧ (∀ (r : Row) (p : String × String), p ∈ cleanRowRaw r →
        ∃ k v, (k, some v) ∈ r ∧ v ≠ "" ∧ p = (k, v))
    ∧ (∀ (r : Row) (k v : String), (k, some v) ∈ r → v ≠ "" →
        k ∈ (cleanRowRaw r).map Prod.fst)
    ∧ (∀ (t : Table) (u : Int) (rec : List (String × String))
        (p : String × String),
        getSchoolByUrn t u = some rec → p ∈ rec →
        p = (giasUrlKey, giasDetailUrl u)
          ∨ ∃ row k v, row ∈ t.rows ∧ (k, some v) ∈ row ∧ v ≠ "" ∧ p = (k, v))
    ∧ (∀ (urn : Int) (row : Row) (p : String × String),
        p ∈ buildInspection urn row →
        p.1 = urnKey ∨ p.1 = reportUrlKey
        ∨ ∃ f v, rowGet row f = some v ∧ pyStrip v ≠ "" ∧ pyStrip v ≠ "NULL"
            ∧ pyStrip v ≠ "None" ∧ (p.1 = f ∨ p.1 = f ++ textSuffix)) := by
  refine ⟨?_, ?_, ?_, ?_, ?_, ?_⟩
  · intro r p hp
    rcases cleanStep_fold_mem r [] p hp with hin | hex
    · simp at hin
    · exact hex
  · intro r k v hkv hv
    exact cleanStep_fold_retains r [] k v hkv hv
  · intro r p hp
    rcases rawStep_fold_mem r [] p hp with hin | hex
    · simp at hin
    · exact hex
  · intro r k v hkv hv
    exact rawStep_fold_retains r [] k v hkv hv
  · intro t u rec p hrec hp
    cases hf : t.rows.filter (giasTextMatch u) with
    | nil =>
      unfold getSchoolByUrn at hrec
      rw [hf] at hrec
      simp at hrec
    | cons a l =>
      unfold getSchoolByUrn at hrec
      rw [hf] at hrec
      have hrec2 : rec = upsertStr (cleanRowRaw a) giasUrlKey (giasDetailUrl u) := by
        simpa using hrec.symm
      have hfmem : a ∈ t.rows.filter (giasTextMatch u) := by
        rw [hf]
        exact List.mem_cons_self a l
      have hrowmem : a ∈ t.rows := List.mem_of_mem_filter hfmem
      rw [hrec2] at hp
      rcases upsertStr_mem hp with hmem | hurl
      · rcases rawStep_fold_mem a [] p hmem with hin | ⟨k, v, hkv, hv, hpe⟩
        · simp at hin
        · exact Or.inr ⟨a, k, v, hrowmem, hkv, hv, hpe⟩
      · exact Or.inl hurl
  · intro urn row p hp
    unfold buildInspection at hp
    rcases List.mem_cons.mp hp with h1 | hp2
    · left
      rw [h1]
    rcases List.mem_append.mp hp2 with hga | hrl
    rcases List.mem_append.mp hga with hg | ht
    · obtain ⟨f, _, c, hk, hor⟩ := gradeEntries_mem hg
      obtain ⟨v, hv, hv1, hv2, hv3, _⟩ := keepVal_some hk
      right; right
      refine ⟨f, v, hv, hv1, hv2, hv3, ?_⟩
      rcases hor with h | h <;> rw [h]
      · exact Or.inl rfl
      · exact Or.inr rfl
    · obtain ⟨f, _, c, hk, hpe⟩ := textEntries_mem ht
      obtain ⟨v, hv, hv1, hv2, hv3, _⟩ := keepVal_some hk
      right; right
      exact ⟨f, v, hv, hv1, hv2, hv3, Or.inl (by rw [hpe])⟩
    · right; left
      have : p = (reportUrlKey, ofstedReportUrl urn) := by simpa using hrl
      rw [this]

/-- C5 counterexample: a source cell holding the literal string
`"NULL"` survives the search-result projection — `_row_to_dict` only
filters null and the empty string, not the marker strings. -/
theorem projection_keeps_null_marker_cex :
    rowToDict [nullMarkerRow] = [[(pcCol, "NULL")]]
    ∧ (pcCol, "NULL") ∈ cleanRow nullMarkerRow
    ∧ pyStrip ("NULL") = "NULL" := by
  decide

theorem output_omission_policy_witness :
    (∃ k v, (k, some v) ∈ c5KeptRow ∧ v ≠ ""
      ∧ (pcCol, ("AB1 2CD" : String)) = (renameKey k, v))
    ∧ renameKey pcCol ∈ (cleanRow c5KeptRow).map Prod.fst
    ∧ (∃ k v, (k, some v) ∈ c5KeptRow ∧ v ≠ ""
      ∧ (pcCol, ("AB1 2CD" : String)) = (k, v))
    ∧ pcCol ∈ (cleanRowRaw c5KeptRow).map Prod.fst
    ∧ ((pcCol, ("AB1 2CD" : String)) = (giasUrlKey, giasDetailUrl 109825)
      ∨ ∃ row k v, row ∈ c5Tbl.rows ∧ (k, some v) ∈ row ∧ v ≠ ""
          ∧ (pcCol, ("AB1 2CD" : String)) = (k, v))
    ∧ ((oeField, ("2" : String)).1 = urnKey
      ∨ (oeField, ("2" : String)).1 = reportUrlKey
      ∨ ∃ f v, rowGet c5InsRow f = some v ∧ pyStrip v ≠ ""
          ∧ pyStrip v ≠ "NULL" ∧ pyStrip v ≠ "None"
          ∧ ((oeField, ("2" : String)).1 = f
            ∨ (oeField, ("2" : String)).1 = f ++ textSuffix)) :=
  ⟨output_omission_policy.1 c5KeptRow (pcCol, ("AB1 2CD")) (by decide),
   output_omission_policy.2.1 c5KeptRow pcCol ("AB1 2CD") (by decide) (by decide),
   output_omission_policy.2.2.1 c5KeptRow (pcCol, ("AB1 2CD")) (by decide),
   output_omission_policy.2.2.2.1 c5KeptRow pcCol ("AB1 2CD") (by decide) (by decide),
   output_omission_policy.2.2.2.2.1 c5Tbl 109825 c5Rec (pcCol, ("AB1 2CD"))
     (by decide) (by decide),
   output_omission_policy.2.2.2.2.2 1 c5InsRow (oeField, ("2")) (by decide)⟩

/-! ## C7: free-text query filter -/

theorem optTrue_matchCol {r : Row} {c q : String} :
    optTrue (matchCol r c q) = true ↔ matchTrue r c q := by
  unfold optTrue matchCol matchTrue
  cases h : rowGet r c with
  | none => simp [h]
  | some s => simp [h]

/-- C7 (amended): for a non-empty query, a row passes the text-search
stage iff the stripped, uppercased query is a substring of the
uppercased postcode or name when the query contains a digit, and of
the uppercased name alone otherwise (a null cell never matches). -/
theorem queryStage_membership (rows : List Row) (q : String) (r : Row)
    (hq : q ≠ "") :
    r ∈ queryStage (some q) rows ↔
      r ∈ rows ∧
        ((hasDigit (upperStr (pyStrip q)) = true
            ∧ (matchTrue r pcCol (upperStr (pyStrip q))
              ∨ matchTrue r nameCol (upperStr (pyStrip q))))
          ∨ (hasDigit (upperStr (pyStrip q)) = false
            ∧ matchTrue r nameCol (upperStr (pyStrip q)))) := by
  have hstage : queryStage (some q) rows
      = (if hasDigit (upperStr (pyStrip q)) = true then
          rows.filter (fun rr =>
            optTrue (matchCol rr pcCol (upperStr (pyStrip q)))
              || optTrue (matchCol rr nameCol (upperStr (pyStrip q))))
        else
          rows.filter (fun rr =>
            optTrue (matchCol rr nameCol (upperStr (pyStrip q))))) := by
    unfold queryStage
    simp [hq]
  rw [hstage]
  cases hd : hasDigit (upperStr (pyStrip q)) with
  | true =>
    simp only [if_pos rfl, List.mem_filter, Bool.or_eq_true, optTrue_matchCol]
    simp [optTrue_matchCol]
  | false =>
    simp only [Bool.false_eq_true, if_neg, List.mem_filter, optTrue_matchCol]
    simp [optTrue_matchCol]

/-- C7 counterexample: the source strips the query before matching;
for the query `" TE1"` (leading whitespace) the spec scenario row
passes the source's filter, while the claim's untrimmed uppercased
query is a substring of neither the postcode nor the name. -/
theorem queryStage_trims_query_cex :
    teRow ∈ queryStage (some (" TE1")) [teRow]
    ∧ claimTextMatch (" TE1") teRow = false := by
  decide

theorem queryStage_membership_witness :
    teRow ∈ queryStage (some ("TE1")) [teRow] ↔
      teRow ∈ [teRow] ∧
        ((hasDigit (upperStr (pyStrip ("TE1"))) = true
            ∧ (matchTrue teRow pcCol (upperStr (pyStrip ("TE1")))
              ∨ matchTrue teRow nameCol (upperStr (pyStrip ("TE1")))))
          ∨ (hasDigit (upperStr (pyStrip ("TE1"))) = false
            ∧ matchTrue teRow nameCol (upperStr (pyStrip ("TE1"))))) :=
  queryStage_membership [teRow] ("TE1") teRow (by decide)

/-! ## C6: radius search -/

theorem insertByKey_mem {α : Type} (k : α → ℚ) (a b : α) (l : List α) :
    b ∈ insertByKey k a l ↔ b = a ∨ b ∈ l := by
  induction l with
  | nil => simp [insertByKey]
  | cons c t ih =>
    unfold insertByKey
    by_cases h : k a ≤ k c
    · rw [if_pos h]
      simp [List.mem_cons]
    · rw [if_neg h]
      simp only [List.mem_cons, ih]
      tauto

theorem insertByKey_length {α : Type} (k : α → ℚ) (a : α) (l : List α) :
    (insertByKey k a l).length = l.length + 1 := by
  induction l with
  | nil => rfl
  | cons c t ih =>
    unfold insertByKey
    by_cases h : k a ≤ k c
    · rw [if_pos h]
      rfl
    · rw [if_neg h]
      simp [ih]

theorem sortByKey_length {α : Type} (k : α → ℚ) (l : List α) :
    (sortByKey k l).length = l.length := by
  induction l with
  | nil => rfl
  | cons a t ih =>
    unfold sortByKey
    rw [insertByKey_length, ih]
    rfl

theorem sortByKey_mem {α : Type} (k : α → ℚ) (b : α) (l : List α) :
    b ∈ sortByKey k l ↔ b ∈ l := by
  induction l with
  | nil => simp [sortByKey]
  | cons a t ih =>
    unfold sortByKey
    rw [insertByKey_mem]
    simp [ih]

theorem insertByKey_pairwise {α : Type} (k : α → ℚ) (a : α) (l : List α)
    (h : l.Pairwise (fun x y => k x ≤ k y)) :
    (insertByKey k a l).Pairwise (fun x y => k x ≤ k y) := by
  induction l with
  | nil => simp [insertByKey]
  | cons c t ih =>
    rw [List.pairwise_cons] at h
    obtain ⟨hc, ht⟩ := h
    unfold insertByKey
    by_cases hle : k a ≤ k c
    · rw [if_pos hle]
      rw [List.pairwise_cons]
      refine ⟨?_, ?_⟩
      · intro b hb
        rcases List.mem_cons.mp hb with rfl | hbt
        · exact hle
        · exact le_trans hle (hc b hbt)
      · rw [List.pairwise_cons]
        exact ⟨hc, ht⟩
    · rw [if_neg hle]
      rw [List.pairwise_cons]
      refine ⟨?_, ih ht⟩
      intro b hb
      rcases (insertByKey_mem k a b t).mp hb with rfl | hbt
      · exact le_of_not_le hle
      · exact hc b hbt

theorem sortByKey_pairwise {α : Type} (k : α → ℚ) (l : List α) :
    (sortByKey k l).Pairwise (fun x y => k x ≤ k y) := by
  induction l with
  | nil => simp [sortByKey]
  | cons a t ih => exact insertByKey_pairwise k a _ ih

theorem keptOf_cons_none (r : Row) (ps : List (Row × Option ℚ))
    (radius : ℚ) : keptOf ((r, none) :: ps) radius = keptOf ps radius := rfl

theorem keptOf_cons_some_pos {d radius : ℚ} (r : Row)
    (ps : List (Row × Option ℚ)) (hsq : sqrtLeRadius d radius = true) :
    keptOf ((r, some d) :: ps) radius = (r, d) :: keptOf ps radius := by
  unfold keptOf
  rw [List.filterMap_cons]
  simp [hsq]

theorem keptOf_cons_some_neg {d radius : ℚ} (r : Row)
    (ps : List (Row × Option ℚ)) (hsq : sqrtLeRadius d radius = false) :
    keptOf ((r, some d) :: ps) radius = keptOf ps radius := by
  unfold keptOf
  rw [List.filterMap_cons]
  simp [hsq]

theorem computeDists_sound (cl cg radius : ℚ) :
    ∀ (l : List Row) (ps : List (Row × Option ℚ)),
      computeDists cl cg l = .ok ps →
      (∀ p ∈ keptOf ps radius,
        p.1 ∈ l ∧ rowDistSq cl cg p.1 = .ok (some p.2)
          ∧ sqrtLeRadius p.2 radius = true)
      ∧ (keptOf ps radius).length
          = (l.filter (distKeep cl cg radius)).length
      ∧ (∀ r ∈ l, distKeep cl cg radius r = true →
          ∃ d, (r, d) ∈ keptOf ps radius) := by
  intro l
  induction l with
  | nil =>
    intro ps h
    have hps : ps = [] := by
      simpa [computeDists] using h.symm
    subst hps
    exact ⟨by simp [keptOf], by simp [keptOf], by simp⟩
  | cons r rest ih =>
    intro ps h
    unfold computeDists at h
    cases hd : rowDistSq cl cg r with
    | error e =>
      rw [hd] at h
      simp at h
    | ok od =>
      rw [hd] at h
      cases hrest : computeDists cl cg rest with
      | error e =>
        rw [hrest] at h
        simp at h
      | ok ps' =>
        rw [hrest] at h
        have hps : ps = (r, od) :: ps' := by
          simpa using h.symm
        subst hps
        obtain ⟨ihs, ihl, ihc⟩ := ih ps' hrest
        cases od with
        | none =>
          rw [keptOf_cons_none]
          have hdkf : distKeep cl cg radius r = false := by
            unfold distKeep
            rw [hd]
          refine ⟨?_, ?_, ?_⟩
          · intro p hp
            obtain ⟨h1, h2, h3⟩ := ihs p hp
            exact ⟨List.mem_cons_of_mem _ h1, h2, h3⟩
          · rw [List.filter_cons_of_neg (by simp [hdkf])]
            exact ihl
          · intro rr hrr hdkrr
            rcases List.mem_cons.mp hrr with rfl | hmem
            · rw [hdkf] at hdkrr
              cases hdkrr
            · exact ihc rr hmem hdkrr
        | some d =>
          cases hsq : sqrtLeRadius d radius with
          | true =>
            rw [keptOf_cons_some_pos r ps' hsq]
            have hdkt : distKeep cl cg radius r = true := by
              unfold distKeep
              rw [hd]
              exact hsq
            refine ⟨?_, ?_, ?_⟩
            · intro p hp
              rcases List.mem_cons.mp hp with rfl | hmem
              · exact ⟨List.mem_cons_self _ _, hd, hsq⟩
              · obtain ⟨h1, h2, h3⟩ := ihs p hmem
                exact ⟨List.mem_cons_of_mem _ h1, h2, h3⟩
            · rw [List.filter_cons_of_pos (by simp [hdkt])]
              simp only [List.length_cons, ihl]
            · intro rr hrr hdkrr
              rcases List.mem_cons.mp hrr with rfl | hmem
              · exact ⟨d, List.mem_cons_self _ _⟩
              · obtain ⟨d0, hd0⟩ := ihc rr hmem hdkrr
                exact ⟨d0, List.mem_cons_of_mem _ hd0⟩
          | false =>
            rw [keptOf_cons_some_neg r ps' hsq]
            have hdkf : distKeep cl cg radius r = false := by
              unfold distKeep
              rw [hd]
              exact hsq
            refine ⟨?_, ?_, ?_⟩
            · intro p hp
              obtain ⟨h1, h2, h3⟩ := ihs p hp
              exact ⟨List.mem_cons_of_mem _ h1, h2, h3⟩
            · rw [List.filter_cons_of_neg (by simp [hdkf])]
              exact ihl
            · intro rr hrr hdkrr
              rcases List.mem_cons.mp hrr with rfl | hmem
              · rw [hdkf] at hdkrr
                cases hdkrr
              · exact ihc rr hmem hdkrr

theorem filter_latPresent_distKeep (cl cg radius : ℚ) (l : List Row) :
    (l.filter latPresent).filter (distKeep cl cg radius)
      = l.filter (eligRow cl cg radius) := by
  induction l with
  | nil => rfl
  | cons r rest ih =>
    cases hl : latPresent r with
    | true =>
      cases hdk : distKeep cl cg radius r with
      | true =>
        have he : eligRow cl cg radius r = true := by
          unfold eligRow
          rw [hl, hdk]
          rfl
        simp [List.filter_cons, hl, hdk, he, ih]
      | false =>
        have he : eligRow cl cg radius r = false := by
          unfold eligRow
          rw [hl, hdk]
          rfl
        simp [List.filter_cons, hl, hdk, he, ih]
    | false =>
      have he : eligRow cl cg radius r = false := by
        unfold eligRow
        rw [hl]
        rfl
      simp [List.filter_cons, hl, he, ih]

theorem sorted_take_le {α : Type} (k : α → ℚ) (l : List α) (n : Nat)
    (hp : l.Pairwise (fun x y => k x ≤ k y))
    {a b : α} (ha : a ∈ l.take n) (hb : b ∈ l) (hbn : b ∉ l.take n) :
    k a ≤ k b := by
  have hsplit : l.take n ++ l.drop n = l := List.take_append_drop n l
  have hb2 : b ∈ l.take n ++ l.drop n := by
    rw [hsplit]
    exact hb
  rcases List.mem_append.mp hb2 with h1 | h2
  · exact absurd h1 hbn
  · have hp2 : (l.take n ++ l.drop n).Pairwise (fun x y => k x ≤ k y) := by
      rw [hsplit]
      exact hp
    exact (List.pairwise_append.mp hp2).2.2 a ha b h2

/-- C6: with no phase filter, over the open-restricted rows (all rows
when the status column is absent) the radius search returns exactly
the rows with a non-empty latitude cell whose squared approximate
planar distance is within the squared radius — equivalent to the
claim's `sqrt(((dlat)*111)^2 + ((dlng)*65)^2) ≤ R` for `R ≥ 0` —
sorted ascending by that distance, truncated to the nearest `limit`
rows (every returned distance is at most the distance of any eligible
row left out), with the computed (squared) distance attached to each
returned row. -/
theorem findSchoolsNear_radius_spec (t : Table)
    (centerLat centerLng radius : ℚ) (limit : Nat) (res : List (Row × ℚ))
    (hres : findSchoolsNearRows t centerLat centerLng radius none limit
      = .ok res)
    (hrad : 0 ≤ radius) :
    (∀ p ∈ res, p.1 ∈ openFilter t
        ∧ rowDistSq centerLat centerLng p.1 = .ok (some p.2)
        ∧ p.2 ≤ radius * radius)
    ∧ res.Pairwise (fun a b => a.2 ≤ b.2)
    ∧ res.length
        = min limit
            ((openFilter t).filter (eligRow centerLat centerLng radius)).length
    ∧ (res.length < limit → ∀ r ∈ openFilter t,
        eligRow centerLat centerLng radius r = true →
        r ∈ res.map Prod.fst)
    ∧ (∀ p ∈ res, ∀ r ∈ openFilter t,
        eligRow centerLat centerLng radius r = true →
        r ∉ res.map Prod.fst →
        ∃ d, rowDistSq centerLat centerLng r = .ok (some d) ∧ p.2 ≤ d) := by
  simp only [findSchoolsNearRows, optFilter] at hres
  cases hcd : computeDists centerLat centerLng
      ((openFilter t).filter latPresent) with
  | error e =>
    rw [hcd] at hres
    simp at hres
  | ok ps =>
    rw [hcd] at hres
    have hresv : res = (sortByKey (fun p => p.2) (keptOf ps radius)).take limit := by
      simpa using hres.symm
    obtain ⟨hsound, hlen, hcomp⟩ :=
      computeDists_sound centerLat centerLng radius
        ((openFilter t).filter latPresent) ps hcd
    refine ⟨?_, ?_, ?_, ?_, ?_⟩
    · intro p hp
      rw [hresv] at hp
      have hp1 : p ∈ sortByKey (fun p => p.2) (keptOf ps radius) :=
        List.mem_of_mem_take hp
      have hp2 : p ∈ keptOf ps radius := (sortByKey_mem _ _ _).mp hp1
      obtain ⟨h1, h2, h3⟩ := hsound p hp2
      refine ⟨List.mem_of_mem_filter h1, h2, ?_⟩
      unfold sqrtLeRadius at h3
      rw [Bool.and_eq_true] at h3
      exact of_decide_eq_true h3.2
    · rw [hresv]
      exact List.Pairwise.sublist (List.take_sublist _ _)
        (sortByKey_pairwise _ _)
    · rw [hresv, List.length_take, sortByKey_length, hlen,
        filter_latPresent_distKeep]
    · intro hlt r hr helig
      rw [hresv] at hlt ⊢
      rw [List.length_take] at hlt
      have hlenlt :
          (sortByKey (fun p => p.2) (keptOf ps radius)).length < limit := by
        by_contra hcon
        push_neg at hcon
        rw [Nat.min_eq_left hcon] at hlt
        exact lt_irrefl _ hlt
      have htake : (sortByKey (fun p => p.2) (keptOf ps radius)).take limit
          = sortByKey (fun p => p.2) (keptOf ps radius) :=
        List.take_of_length_le (le_of_lt hlenlt)
      rw [htake]
      unfold eligRow at helig
      rw [Bool.and_eq_true] at helig
      obtain ⟨hlat, hdk⟩ := helig
      have hr2 : r ∈ (openFilter t).filter latPresent :=
        List.mem_filter.mpr ⟨hr, hlat⟩
      obtain ⟨d, hdmem⟩ := hcomp r hr2 hdk
      have hmem : (r, d) ∈ sortByKey (fun p => p.2) (keptOf ps radius) :=
        (sortByKey_mem _ _ _).mpr hdmem
      exact List.mem_map_of_mem Prod.fst hmem
    · intro p hp r hr helig hnotin
      unfold eligRow at helig
      rw [Bool.and_eq_true] at helig
      obtain ⟨hlat, hdk⟩ := helig
      have hr2 : r ∈ (openFilter t).filter latPresent :=
        List.mem_filter.mpr ⟨hr, hlat⟩
      obtain ⟨d, hdmem⟩ := hcomp r hr2 hdk
      obtain ⟨_, hdeq, _⟩ := hsound (r, d) hdmem
      refine ⟨d, hdeq, ?_⟩
      have hsortmem : (r, d) ∈ sortByKey (fun p => p.2) (keptOf ps radius) :=
        (sortByKey_mem _ _ _).mpr hdmem
      have hnottake : (r, d) ∉
          (sortByKey (fun p => p.2) (keptOf ps radius)).take limit := by
        intro hmem
        apply hnotin
        rw [hresv]
        exact List.mem_map_of_mem Prod.fst hmem
      have hptake : p ∈ (sortByKey (fun p => p.2) (keptOf ps radius)).take limit := by
        rw [hresv] at hp
        exact hp
      exact sorted_take_le (fun q : Row × ℚ => q.2) _ limit
        (sortByKey_pairwise _ _) hptake hsortmem hnottake

unseal Rat.add Rat.mul Rat.sub Rat.inv Rat.ofScientific in
theorem findSchoolsNear_radius_spec_witness :
    (∀ p ∈ c6Res, p.1 ∈ openFilter c6Table
        ∧ rowDistSq 0 0 p.1 = .ok (some p.2)
        ∧ p.2 ≤ (250 : ℚ) * 250)
    ∧ c6Res.Pairwise (fun a b => a.2 ≤ b.2)
    ∧ c6Res.length
        = min 10 ((openFilter c6Table).filter (eligRow 0 0 250)).length
    ∧ (c6Res.length < 10 → ∀ r ∈ openFilter c6Table,
        eligRow 0 0 250 r = true → r ∈ c6Res.map Prod.fst)
    ∧ (∀ p ∈ c6Res, ∀ r ∈ openFilter c6Table, eligRow 0 0 250 r = true →
        r ∉ c6Res.map Prod.fst →
        ∃ d, rowDistSq 0 0 r = .ok (some d) ∧ p.2 ≤ d) :=
  findSchoolsNear_radius_spec c6Table 0 0 250 10 c6Res rfl (by decide)
